import Mathlib

/-!
Verification development for the dotfiles installer repository.

Shallow embedding of the installer's core modules:
  * `installer/dotfile_manager.py` — `DotfileManager` (safe symlink / safe write
    with timestamped backups) over an explicit filesystem state,
  * `installer/config.py` — `Config` and `Config.from_env`,
  * `installer/stages.py` — `Stage`, its execution state machine, the stage
    registry and dependency resolution.

Filesystem model: a finite association list from absolute paths (lists of
components) to entries (regular file with content and mtime, directory, or
symbolic link).  Final-component symlink chains are followed with an explicit
fuel bound (one more than the number of entries, so any longer chain must loop,
modelling `ELOOP`); intermediate path components are taken literally, which is
adequate for every property considered here.  Fallible filesystem operations
return `Option`.
-/

set_option autoImplicit false

abbrev FsPath := List String

inductive FsEntry where
  | file (content : String) (mtime : Nat)
  | dir
  | symlink (target : FsPath)
  deriving DecidableEq, Repr

structure FS where
  entries : List (FsPath × FsEntry)
  deriving DecidableEq, Repr

/-- Association-list lookup keyed by decidable equality (first match wins,
as in a Python `dict` read). -/
def alookup {α β : Type} [DecidableEq α] (k : α) : List (α × β) → Option β
  | [] => none
  | kv :: rest => if kv.1 = k then some kv.2 else alookup k rest

/-- Remove every binding of key `k`. -/
def eraseKey {α β : Type} [DecidableEq α] (k : α) : List (α × β) → List (α × β)
  | [] => []
  | kv :: rest => if kv.1 = k then eraseKey k rest else kv :: eraseKey k rest

def FS.lookup (fs : FS) (p : FsPath) : Option FsEntry :=
  alookup p fs.entries

def FS.erase (fs : FS) (p : FsPath) : FS :=
  ⟨eraseKey p fs.entries⟩

def FS.insert (fs : FS) (p : FsPath) (e : FsEntry) : FS :=
  ⟨eraseKey p fs.entries ++ [(p, e)]⟩

/-- Follow the symlink chain starting at `p` for at most `fuel` steps
(`none` models `ELOOP`). -/
def FS.resolveGo (fs : FS) : Nat → FsPath → Option FsPath
  | 0, _ => none
  | fuel + 1, p =>
    match fs.lookup p with
    | some (.symlink t) => fs.resolveGo fuel t
    | _ => some p

/-- Resolve the final component of `p` through symlinks, as `os.stat` /
`pathlib.Path.resolve` do.  A chain longer than the number of entries must
revisit an entry, so the fuel bound only cuts off genuine loops. -/
def FS.resolveLeaf (fs : FS) (p : FsPath) : Option FsPath :=
  fs.resolveGo (fs.entries.length + 1) p

/-- `os.stat`: the entry `p` refers to after following symlinks. -/
def FS.stat (fs : FS) (p : FsPath) : Option FsEntry :=
  (fs.resolveLeaf p).bind fs.lookup

/-- `pathlib.Path.is_file` (follows symlinks). -/
def FS.is_file (fs : FS) (p : FsPath) : Bool :=
  match fs.stat p with
  | some (.file _ _) => true
  | _ => false

/-- `pathlib.Path.is_dir` (follows symlinks). -/
def FS.is_dir (fs : FS) (p : FsPath) : Bool :=
  match fs.stat p with
  | some .dir => true
  | _ => false

/-- `pathlib.Path.is_symlink` (`lstat`: does not follow the final link). -/
def FS.is_symlink (fs : FS) (p : FsPath) : Bool :=
  match fs.lookup p with
  | some (.symlink _) => true
  | _ => false

/-- `pathlib.Path.name`. -/
def pathName (p : FsPath) : String :=
  p.getLastD ""

/-- `pathlib.Path.parent`. -/
def pathParent (p : FsPath) : FsPath :=
  p.dropLast

/-- `os.rename`: moves the entry at `p` (without following a final symlink) to
`q`, overwriting `q`; fails if `p` has no entry. -/
def FS.rename (fs : FS) (p q : FsPath) : Option FS :=
  match fs.lookup p with
  | none => none
  | some e => some ((fs.erase p).insert q e)

/-- `pathlib.Path.symlink_to`: creates a symlink at the (literal) path `p`
pointing at `target`; fails with `FileExistsError` if `p` already exists. -/
def FS.symlink_to (fs : FS) (p target : FsPath) : Option FS :=
  match fs.lookup p with
  | some _ => none
  | none => some (fs.insert p (.symlink target))

/-- `pathlib.Path.write_text`: opens `p` following symlinks and truncates or
creates the resolved file; fails on a directory or a symlink loop. -/
def FS.write_text (fs : FS) (p : FsPath) (text : String) (now : Nat) : Option FS :=
  match fs.resolveLeaf p with
  | none => none
  | some rp =>
    match fs.lookup rp with
    | some .dir => none
    | _ => some (fs.insert rp (.file text now))

/-- `pathlib.Path.read_text` combined with `is_file`, as used by
`DotfileManager._file_content_matches` (both follow symlinks). -/
def FS.content_matches (fs : FS) (text : String) (p : FsPath) : Bool :=
  match fs.stat p with
  | some (.file c _) => decide (c = text)
  | _ => false

/-- `DotfileManager` from `installer/dotfile_manager.py`; `timestamp` is the
run timestamp already formatted as `%Y-%m-%d_%H-%M-%S`. -/
structure DotfileManager where
  timestamp : String
  deriving DecidableEq, Repr

def DotfileManager.backup_suffix (dm : DotfileManager) : String :=
  ".pre-dotfiles-installer-" ++ dm.timestamp

/-- `DotfileManager.backup_path`: `path.parent / f"{path.name}{suffix}"`. -/
def DotfileManager.backup_path (dm : DotfileManager) (p : FsPath) : FsPath :=
  pathParent p ++ [pathName p ++ dm.backup_suffix]

/-- `DotfileManager.cleanup_path`: a symlink is unlinked (no backup), a regular
file is renamed to its backup path, anything else is left alone.  Returns the
new filesystem and the backup path if a file was moved.  The `rename` failure
arm is unreachable: in that branch `p` is not a symlink, so `is_file` means the
literal entry at `p` is a regular file and the rename finds it. -/
def DotfileManager.cleanup_path (dm : DotfileManager) (fs : FS) (p : FsPath) :
    FS × Option FsPath :=
  if fs.is_symlink p then (fs.erase p, none)
  else if fs.is_file p then
    match fs.rename p (dm.backup_path p) with
    | some fs2 => (fs2, some (dm.backup_path p))
    | none => (fs, none)
  else (fs, none)

/-- `DotfileManager.safe_symlink`: retarget a directory destination to
`destination / source.name`, clean up the destination, then create the link. -/
def DotfileManager.safe_symlink (dm : DotfileManager) (fs : FS)
    (source destination : FsPath) : Option FS :=
  let destination := if fs.is_dir destination
    then destination ++ [pathName source] else destination
  let cleaned := dm.cleanup_path fs destination
  cleaned.1.symlink_to destination source

/-- `DotfileManager.safe_write`: no-op when the destination already has the
desired content, otherwise clean up the destination and write the text. -/
def DotfileManager.safe_write (dm : DotfileManager) (fs : FS) (text : String)
    (destination : FsPath) (now : Nat) : Option FS :=
  if fs.content_matches text destination then some fs
  else (dm.cleanup_path fs destination).1.write_text destination text now

/-! ## Config (`installer/config.py`) -/

/-- Python truthiness of an `Optional[list[str]]` argument: `None` and the
empty list are falsy. -/
def optTruthy (o : Option (List String)) : Bool :=
  !(o.getD []).isEmpty

/-- `Config` from `installer/config.py`.  Ambient defaults (current platform,
current time) are supplied by the caller. -/
structure Config where
  username : String
  full_name : String
  email : Option String
  confirm_all_stages : Bool
  platform : String
  skipped_stages : List String
  only_stages : List String
  timestamp : Nat
  deriving DecidableEq, Repr

/-- `Config.from_env`: rejects a run that sets both the skip list and the only
list (Python truthiness: `None` and `[]` both count as unset), otherwise builds
the config with `skipped_stages or []` / `only_stages or []`.  The ambient
username, full name, platform and current time are passed explicitly. -/
def Config.from_env (email : Option String)
    (skipped_stages only_stages : Option (List String))
    (confirm_all_stages : Bool) (username full_name platformName : String)
    (now : Nat) : Except String Config :=
  if optTruthy skipped_stages && optTruthy only_stages then
    .error "Cannot set skip and only flags in parallel"
  else
    .ok { username := username
          full_name := full_name
          email := email
          confirm_all_stages := confirm_all_stages
          platform := platformName
          skipped_stages := skipped_stages.getD []
          only_stages := only_stages.getD []
          timestamp := now }

/-! ## Stage (`installer/stages.py`) -/

/-- `Stage.Status`. -/
inductive Status where
  | not_executed
  | success
  | failure
  | skipped
  deriving DecidableEq, Repr

/-- A raw dependency entry as a Python runtime value: the declared list may
hold strings and `Stage` objects (identified here by flag name); `vtuple`
is the `(index, element)` pair produced by `enumerate`, and `vother` stands
for a value of any other type. -/
inductive DepVal where
  | vstr (s : String)
  | vstage (flag : String)
  | vtuple (idx : Nat) (v : DepVal)
  | vother
  deriving DecidableEq, Repr

/-- `Stage` from `installer/stages.py`.  The wrapped function is represented
by its `__name__` (`func_name`); the predicate, when configured, by the value
it returns when called.  `resolved_dependencies` holds the flag names of the
appended stages. -/
structure Stage where
  name : String
  func_name : String
  interactive_confirm : Bool
  predicate : Option Bool
  abort_on_error : Bool
  details : Option String
  platforms : List String
  raw_dependencies : List DepVal
  resolved_dependencies : List String
  status : Status
  deriving DecidableEq, Repr

/-- Flag-name derivation: `name.lower().replace(" ", "-").replace(".", "")`. -/
def flagNameOf (name : String) : String :=
  ((name.toLower).replace " " "-").replace "." ""

def Stage.flag_name (s : Stage) : String :=
  flagNameOf s.name

/-- `Stage.is_valid_for_current_platform`:
`not self._platforms or platform.system() in self._platforms`. -/
def Stage.is_valid_for_current_platform (s : Stage) (current : String) : Bool :=
  s.platforms.isEmpty || decide (current ∈ s.platforms)

/-- Skip flag after `if flag_name in cfg.skipped_stages: skip = True`. -/
def skipAfterSkipped (s : Stage) (cfg : Config) : Bool :=
  if s.flag_name ∈ cfg.skipped_stages then true else false

/-- Skip flag after
`if cfg.only_stages and flag_name not in cfg.only_stages: skip = True`. -/
def skipAfterOnly (s : Stage) (cfg : Config) : Bool :=
  if cfg.only_stages ≠ [] ∧ s.flag_name ∉ cfg.only_stages then true
  else skipAfterSkipped s cfg

/-- Skip flag after
`if not skip and self._predicate is not None and not self._predicate()`.
With the predicate modelled by its returned value, `is not None and not
self._predicate()` is exactly `predicate = some false`. -/
def skipAfterPredicate (s : Stage) (cfg : Config) : Bool :=
  if skipAfterOnly s cfg = false ∧ s.predicate = some false then true
  else skipAfterOnly s cfg

/-- Skip flag after the interactive-confirmation gate; `user_confirms` is the
answer `confirm(f"{self.name}?", default="y")` would return. -/
def skipAfterConfirm (s : Stage) (cfg : Config) (user_confirms : Bool) : Bool :=
  if skipAfterPredicate s cfg = false ∧ cfg.confirm_all_stages = false ∧
      s.interactive_confirm = true ∧ user_confirms = false then true
  else skipAfterPredicate s cfg

/-- Outcome of `Stage.__call__`: the stage with its updated status, how many
times the wrapped function was invoked, and `some 1` when `sys.exit(1)` was
reached. -/
structure CallResult where
  stage : Stage
  func_calls : Nat
  exit_code : Option Nat
  deriving DecidableEq, Repr

/-- `Stage.__call__` from `installer/stages.py`: evaluate the four skip gates
in order; when skipped, set status `SKIPPED` without invoking the function;
otherwise invoke the function once (`func_ok` tells whether it returns
normally), set `SUCCESS` on normal return, and on an exception set `FAILURE`
and exit with code 1 iff `abort_on_error`. -/
def Stage.call (s : Stage) (cfg : Config) (user_confirms func_ok : Bool) :
    CallResult :=
  if skipAfterConfirm s cfg user_confirms then
    ⟨{ s with status := .skipped }, 0, none⟩
  else if func_ok then
    ⟨{ s with status := .success }, 1, none⟩
  else
    ⟨{ s with status := .failure }, 1,
      if s.abort_on_error then some 1 else none⟩

/-! ## Stage registry (`installer/stages.py`, `_StageRegistry`) -/

/-- Python `dict` assignment `d[k] = v`: update in place (keeping insertion
position) when the key exists, else append. -/
def dictInsert {β : Type} (m : List (String × β)) (k : String) (v : β) :
    List (String × β) :=
  if (alookup k m).isSome then
    m.map (fun kv => if kv.1 = k then (k, v) else kv)
  else m ++ [(k, v)]

/-- `_StageRegistry.register`: add the stage under its flag name iff it is
valid for the current platform, else drop it silently. -/
def registerStage (m : List (String × Stage)) (current : String) (s : Stage) :
    List (String × Stage) :=
  if s.is_valid_for_current_platform current then dictInsert m s.flag_name s
  else m

/-- Registry iteration order (`dict.values()`). -/
def registryValues (m : List (String × Stage)) : List Stage :=
  m.map (·.2)

/-! ## Dependency resolution (`Stage.resolve_dependencies`) -/

/-- A Python `dict` key as a runtime value: a string, or the bound-method
object `stage.func_name` (the attribute is referenced without calling it in
`{stage.func_name: stage for stage in stage_map.values()}`, so the keys of
that dict are method objects, never strings). -/
inductive PyKey where
  | kstr (s : String)
  | kmethod (flag : String)
  deriving DecidableEq, Repr

/-- `func_name_map = {stage.func_name: stage for stage in stage_map.values()}`:
keyed by the bound-method object of each stage. -/
def func_name_map (sm : List (String × Stage)) : List (PyKey × Stage) :=
  sm.map (fun kv => (PyKey.kmethod kv.1, kv.2))

/-- State threaded through the resolution loop: the flag names appended to
`_resolved_dependencies` and the number of warnings logged. -/
structure ResolveState where
  resolved : List String
  warnings : Nat
  deriving DecidableEq, Repr

/-- One iteration of the loop body of `Stage.resolve_dependencies`, applied to
the loop variable `dep`.  A string is looked up in `stage_map`, then in
`func_name_map` (whose keys are method objects, so a string lookup misses);
on a hit `stage_map[dep]` is appended (the arm where only `func_name_map`
matched would raise `KeyError` and is unreachable), and the "not a valid
stage" warning is logged unconditionally in this branch.  A `Stage` value is
appended as-is.  Anything else logs the invalid-type warning. -/
def resolveDepStep (sm : List (String × Stage)) (st : ResolveState)
    (dep : DepVal) : ResolveState :=
  match dep with
  | .vstr d =>
    let found := match alookup d sm with
      | some s0 => some s0
      | none => alookup (PyKey.kstr d) (func_name_map sm)
    let resolved := match found with
      | some _ =>
        match alookup d sm with
        | some s2 => st.resolved ++ [s2.flag_name]
        | none => st.resolved
      | none => st.resolved
    { resolved := resolved, warnings := st.warnings + 1 }
  | .vstage f => { st with resolved := st.resolved ++ [f] }
  | _ => { st with warnings := st.warnings + 1 }

/-- `Stage.resolve_dependencies`: the source iterates
`for dep in enumerate(self._raw_dependencies)`, so each loop value is the
`(index, element)` tuple produced by `enumerate`, not the element itself. -/
def Stage.resolveDeps (s : Stage) (sm : List (String × Stage)) : ResolveState :=
  ((s.raw_dependencies.enum.map (fun pr => DepVal.vtuple pr.1 pr.2))).foldl
    (resolveDepStep sm) ⟨s.resolved_dependencies, 0⟩

/-! ## Concrete fixtures used to instantiate the general theorems -/

def sampleStage : Stage :=
  { name := "sample", func_name := "sample_func", interactive_confirm := false,
    predicate := none, abort_on_error := false, details := none,
    platforms := [], raw_dependencies := [], resolved_dependencies := [],
    status := .not_executed }

def darwinStage : Stage :=
  { sampleStage with name := "darwin only", platforms := ["Darwin"] }

def abortStage : Stage :=
  { sampleStage with abort_on_error := true }

def depSampleStage : Stage :=
  { sampleStage with
    name := "dep sample"
    raw_dependencies := [.vstr "sample"] }

def plainCfg : Config :=
  { username := "u", full_name := "f", email := none,
    confirm_all_stages := false, platform := "Linux", skipped_stages := [],
    only_stages := [], timestamp := 0 }

def onlyCfg : Config :=
  { plainCfg with only_stages := [flagNameOf "sample"] }

def skipCfg : Config :=
  { plainCfg with skipped_stages := [flagNameOf "sample"] }

/-! ## Association-list lemmas -/

theorem alookup_eraseKey_self {α β : Type} [DecidableEq α] (k : α)
    (l : List (α × β)) : alookup k (eraseKey k l) = none := by
  induction l with
  | nil => simp [alookup, eraseKey]
  | cons kv rest ih =>
    by_cases h : kv.1 = k <;> simp [eraseKey, h, alookup, ih]

theorem alookup_eraseKey_ne {α β : Type} [DecidableEq α] (k q : α)
    (h : q ≠ k) (l : List (α × β)) :
    alookup q (eraseKey k l) = alookup q l := by
  induction l with
  | nil => simp [eraseKey]
  | cons kv rest ih =>
    by_cases hk : kv.1 = k
    · have hq : ¬kv.1 = q := fun he => h (he.symm.trans hk)
      simp only [eraseKey, if_pos hk, alookup, if_neg hq, ih]
    · by_cases hq : kv.1 = q
      · simp only [eraseKey, if_neg hk, alookup, if_pos hq]
      · simp only [eraseKey, if_neg hk, alookup, if_neg hq, ih]

theorem alookup_append {α β : Type} [DecidableEq α] (k : α)
    (l1 l2 : List (α × β)) :
    alookup k (l1 ++ l2) =
      match alookup k l1 with
      | some v => some v
      | none => alookup k l2 := by
  induction l1 with
  | nil => simp [alookup]
  | cons kv rest ih =>
    by_cases h : kv.1 = k <;> simp [alookup, h, ih]

theorem FS.lookup_erase_self (fs : FS) (p : FsPath) :
    (fs.erase p).lookup p = none :=
  alookup_eraseKey_self p fs.entries

theorem FS.lookup_erase_ne (fs : FS) (p q : FsPath) (h : q ≠ p) :
    (fs.erase p).lookup q = fs.lookup q :=
  alookup_eraseKey_ne p q h fs.entries

theorem FS.lookup_insert_self (fs : FS) (p : FsPath) (e : FsEntry) :
    (fs.insert p e).lookup p = some e := by
  show alookup p (eraseKey p fs.entries ++ [(p, e)]) = some e
  rw [alookup_append, alookup_eraseKey_self]
  simp [alookup]

theorem FS.lookup_insert_ne (fs : FS) (p : FsPath) (e : FsEntry) (q : FsPath)
    (h : q ≠ p) : (fs.insert p e).lookup q = fs.lookup q := by
  show alookup q (eraseKey p fs.entries ++ [(p, e)]) = _
  rw [alookup_append, alookup_eraseKey_ne p q h]
  cases hq : alookup q fs.entries with
  | some v => rw [FS.lookup, hq]
  | none =>
    have hpq : ¬p = q := fun he => h he.symm
    simp [alookup, hpq, FS.lookup, hq]

/-! ## Resolution lemmas -/

theorem FS.resolveGo_of_not_symlink (fs : FS) (fuel : Nat) (p : FsPath)
    (h : ∀ t, fs.lookup p ≠ some (.symlink t)) :
    fs.resolveGo (fuel + 1) p = some p := by
  cases hl : fs.lookup p with
  | none => simp [FS.resolveGo, hl]
  | some e =>
    cases e with
    | symlink t => exact absurd hl (h t)
    | file c m => simp [FS.resolveGo, hl]
    | dir => simp [FS.resolveGo, hl]

theorem FS.length_pos_of_lookup (fs : FS) (p : FsPath) (e : FsEntry)
    (h : fs.lookup p = some e) : 0 < fs.entries.length := by
  cases hl : fs.entries with
  | nil =>
    rw [FS.lookup, hl] at h
    simp [alookup] at h
  | cons kv rest => simp

theorem FS.stat_of_file (fs : FS) (p : FsPath) (c : String) (m : Nat)
    (h : fs.lookup p = some (.file c m)) : fs.stat p = some (.file c m) := by
  have hr : fs.resolveLeaf p = some p :=
    FS.resolveGo_of_not_symlink fs fs.entries.length p (by simp [h])
  simp [FS.stat, hr, h]

theorem FS.stat_symlink_file (fs : FS) (p q : FsPath) (c : String) (m : Nat)
    (h1 : fs.lookup p = some (.symlink q)) (h2 : fs.lookup q = some (.file c m)) :
    fs.stat p = some (.file c m) := by
  have hpos : 0 < fs.entries.length := fs.length_pos_of_lookup p _ h1
  obtain ⟨n, hn⟩ : ∃ n, fs.entries.length = n + 1 :=
    ⟨fs.entries.length - 1, by omega⟩
  have hstep : fs.resolveLeaf p = fs.resolveGo (n + 1) q := by
    rw [FS.resolveLeaf, hn]
    simp [FS.resolveGo, h1]
  have hq : fs.resolveGo (n + 1) q = some q :=
    FS.resolveGo_of_not_symlink fs n q (by simp [h2])
  simp [FS.stat, hstep, hq, h2]

theorem FS.content_matches_of_stat (fs : FS) (text : String) (p : FsPath)
    (m : Nat) (h : fs.stat p = some (.file text m)) :
    fs.content_matches text p = true := by
  simp [FS.content_matches, h]

/-! ## Cleanup lemmas -/

theorem DotfileManager.cleanup_path_of_symlink (dm : DotfileManager) (fs : FS)
    (p t : FsPath) (h : fs.lookup p = some (.symlink t)) :
    dm.cleanup_path fs p = (fs.erase p, none) := by
  have hs : fs.is_symlink p = true := by simp [FS.is_symlink, h]
  simp [DotfileManager.cleanup_path, hs]

/-! ## Stage skip-gate lemmas -/

theorem skipAfterConfirm_of_skipped (s : Stage) (cfg : Config) (u : Bool)
    (h : s.flag_name ∈ cfg.skipped_stages) :
    skipAfterConfirm s cfg u = true := by
  have h1 : skipAfterSkipped s cfg = true := by simp [skipAfterSkipped, h]
  have h2 : skipAfterOnly s cfg = true := by
    by_cases hc : cfg.only_stages ≠ [] ∧ s.flag_name ∉ cfg.only_stages <;>
      simp [skipAfterOnly, hc, h1]
  have h3 : skipAfterPredicate s cfg = true := by
    simp [skipAfterPredicate, h2]
  simp [skipAfterConfirm, h3]

theorem skipAfterConfirm_eq_false (s : Stage) (cfg : Config) (u : Bool)
    (h1 : s.flag_name ∉ cfg.skipped_stages)
    (h2 : cfg.only_stages = [] ∨ s.flag_name ∈ cfg.only_stages)
    (h3 : s.predicate ≠ some false)
    (h4 : cfg.confirm_all_stages = true ∨ s.interactive_confirm = false ∨
      u = true) :
    skipAfterConfirm s cfg u = false := by
  have hs : skipAfterSkipped s cfg = false := by simp [skipAfterSkipped, h1]
  have ho : skipAfterOnly s cfg = false := by
    rcases h2 with h2 | h2 <;> simp [skipAfterOnly, h2, hs]
  have hp : skipAfterPredicate s cfg = false := by
    simp [skipAfterPredicate, ho, h3]
  rcases h4 with h4 | h4 | h4 <;> simp [skipAfterConfirm, hp, h4]

/-! ## Registry lemmas -/

theorem alookup_map_update {β : Type} (m : List (String × β)) (k : String)
    (v : β) (h : (alookup k m).isSome) :
    alookup k (m.map (fun kv => if kv.1 = k then (k, v) else kv)) = some v := by
  induction m with
  | nil => simp [alookup] at h
  | cons kv rest ih =>
    by_cases hk : kv.1 = k
    · simp [alookup, hk]
    · have h' : (alookup k rest).isSome := by simpa [alookup, hk] using h
      simp [alookup, hk, ih h']

theorem alookup_dictInsert_self {β : Type} (m : List (String × β)) (k : String)
    (v : β) : alookup k (dictInsert m k v) = some v := by
  by_cases h : (alookup k m).isSome
  · rw [dictInsert, if_pos h]
    exact alookup_map_update m k v h
  · rw [dictInsert, if_neg h, alookup_append]
    cases hm : alookup k m with
    | some v' => rw [hm] at h; simp at h
    | none => simp [alookup]

theorem optTruthy_eq_false_getD (o : Option (List String))
    (h : optTruthy o = false) : o.getD [] = [] := by
  cases o with
  | none => rfl
  | some l =>
    cases l with
    | nil => rfl
    | cons a t => simp [optTruthy] at h

/-! ## Claim theorems -/

/-- C1: for a validly constructed config (skip list and only list not both
non-empty) whose non-empty only list contains the stage's flag name, with the
predicate and confirmation gates passing, one call to `Stage.__call__` invokes
the wrapped function exactly once, and on normal return the status is
`SUCCESS` and no process exit happens. -/
theorem stage_only_selected_executes_once (s : Stage) (cfg : Config) (u : Bool)
    (hval : cfg.skipped_stages = [] ∨ cfg.only_stages = [])
    (hne : cfg.only_stages ≠ [])
    (hmem : s.flag_name ∈ cfg.only_stages)
    (hpred : s.predicate ≠ some false)
    (hconf : cfg.confirm_all_stages = true ∨ s.interactive_confirm = false ∨
      u = true) :
    s.call cfg u true = ⟨{ s with status := .success }, 1, none⟩ := by
  have h1 : s.flag_name ∉ cfg.skipped_stages := by
    rcases hval with h | h
    · simp [h]
    · exact absurd h hne
  have hs := skipAfterConfirm_eq_false s cfg u h1 (Or.inr hmem) hpred hconf
  simp [Stage.call, hs]

/-- Witness for C1 on a concrete stage and only-list config. -/
theorem stage_only_selected_executes_once_witness :
    sampleStage.call onlyCfg true true =
      ⟨{ sampleStage with status := .success }, 1, none⟩ :=
  stage_only_selected_executes_once sampleStage onlyCfg true (Or.inl rfl)
    (by simp [onlyCfg, plainCfg]) (List.mem_singleton.mpr rfl) (by simp [sampleStage])
    (Or.inr (Or.inl rfl))

/-- C2 counterexample: when the destination `p` is a symlink whose target is an
existing directory, `safe_symlink` takes the `is_dir` branch (which follows
symlinks), creates the new link inside the directory, and leaves `p` itself
resolving to the old directory rather than to the source. -/
theorem safe_symlink_symlink_claim_counterexample :
    (FS.mk [(["d"], .dir), (["p"], .symlink ["d"]), (["s"], .file "x" 0)]).lookup
        ["p"] = some (.symlink ["d"])
    ∧ ((DotfileManager.mk "ts").safe_symlink
        (FS.mk [(["d"], .dir), (["p"], .symlink ["d"]), (["s"], .file "x" 0)])
        ["s"] ["p"]).map (fun g => g.resolveLeaf ["p"]) = some (some ["d"])
    ∧ (["d"] : FsPath) ≠ ["s"] :=
  ⟨by decide, by decide, by decide⟩

/-- C2 (amended: destination symlinks that resolve to an existing directory
excluded): for every source and destination where the destination is a
symbolic link not resolving to a directory (in particular a link to an
existing regular file, whose presence makes `is_file` true — the symlink check
still wins), `safe_symlink` removes the link itself, touches no other path
(hence no backup and the target survives), and leaves the destination a
symlink to the source. -/
theorem safe_symlink_replaces_nondir_symlink (dm : DotfileManager) (fs : FS)
    (src p tgt : FsPath)
    (hlink : fs.lookup p = some (.symlink tgt))
    (hnotdir : fs.is_dir p = false) :
    dm.safe_symlink fs src p = some ((fs.erase p).insert p (.symlink src))
    ∧ ((fs.erase p).insert p (.symlink src)).lookup p = some (.symlink src)
    ∧ ∀ q, q ≠ p →
        ((fs.erase p).insert p (.symlink src)).lookup q = fs.lookup q := by
  refine ⟨?_, FS.lookup_insert_self _ _ _, ?_⟩
  · have hclean := dm.cleanup_path_of_symlink fs p tgt hlink
    simp [DotfileManager.safe_symlink, hnotdir, hclean, FS.symlink_to,
      FS.lookup_erase_self]
  · intro q hq
    rw [FS.lookup_insert_ne _ _ _ _ hq, FS.lookup_erase_ne _ _ _ hq]

/-- Witness for the amended C2: a symlink to an existing regular file is
replaced in place, the file itself untouched. -/
theorem safe_symlink_replaces_nondir_symlink_witness :
    (DotfileManager.mk "ts").safe_symlink
        (FS.mk [(["t"], .file "hi" 0), (["p"], .symlink ["t"])]) ["s"] ["p"] =
      some (((FS.mk [(["t"], .file "hi" 0), (["p"], .symlink ["t"])]).erase
        ["p"]).insert ["p"] (.symlink ["s"])) :=
  (safe_symlink_replaces_nondir_symlink (DotfileManager.mk "ts")
    (FS.mk [(["t"], .file "hi" 0), (["p"], .symlink ["t"])]) ["s"] ["p"] ["t"]
    (by decide) (by decide)).1

/-- C3 (code-bug exhibit): `Stage.resolve_dependencies` iterates
`enumerate(self._raw_dependencies)`, so the loop variable is an
`(index, element)` tuple; a string dependency that is present in the flag-name
map is nevertheless dropped with one invalid-type warning, and nothing is ever
appended to `_resolved_dependencies`. -/
theorem resolve_dependencies_drops_resolvable_string_dep :
    alookup "sample" [("sample", sampleStage)] = some sampleStage
    ∧ Stage.resolveDeps depSampleStage [("sample", sampleStage)] =
        { resolved := [], warnings := 1 } :=
  ⟨by decide, by decide⟩

/-- C4: `Config.from_env` raises when both the skip list and the only list are
non-empty (in the Python truthiness sense), so every successfully constructed
config has at most one of the two lists non-empty. -/
theorem config_skip_only_mutually_exclusive (email : Option String)
    (sk onl : Option (List String)) (ca : Bool) (u f pl : String) (now : Nat) :
    (optTruthy sk = true → optTruthy onl = true →
      Config.from_env email sk onl ca u f pl now =
        .error "Cannot set skip and only flags in parallel")
    ∧ (∀ cfg, Config.from_env email sk onl ca u f pl now = .ok cfg →
        cfg.skipped_stages = [] ∨ cfg.only_stages = []) := by
  constructor
  · intro h1 h2
    simp [Config.from_env, h1, h2]
  · intro cfg h
    by_cases hc : (optTruthy sk && optTruthy onl) = true
    · rw [Config.from_env, if_pos hc] at h
      exact absurd h (by simp)
    · rw [Config.from_env, if_neg hc] at h
      have key : optTruthy sk = false ∨ optTruthy onl = false := by
        cases hsk : optTruthy sk with
        | false => exact Or.inl rfl
        | true =>
          cases honl : optTruthy onl with
          | false => exact Or.inr rfl
          | true => exact absurd (by rw [hsk, honl]; rfl) hc
      cases h
      exact key.imp (optTruthy_eq_false_getD sk) (optTruthy_eq_false_getD onl)

/-- Witness for C4: constructing with both lists non-empty fails. -/
theorem config_skip_only_mutually_exclusive_witness :
    Config.from_env none (some ["a"]) (some ["b"]) false "u" "f" "Linux" 0 =
      .error "Cannot set skip and only flags in parallel" :=
  (config_skip_only_mutually_exclusive none (some ["a"]) (some ["b"]) false
    "u" "f" "Linux" 0).1 (by decide) (by decide)

/-- C5: a stage whose flag name is in the config's skip list ends the call
with status `SKIPPED` and zero invocations of the wrapped function. -/
theorem stage_skip_flag_skips (s : Stage) (cfg : Config) (u ok : Bool)
    (h : s.flag_name ∈ cfg.skipped_stages) :
    s.call cfg u ok = ⟨{ s with status := .skipped }, 0, none⟩ := by
  simp [Stage.call, skipAfterConfirm_of_skipped s cfg u h]

/-- Witness for C5. -/
theorem stage_skip_flag_skips_witness :
    sampleStage.call skipCfg true true =
      ⟨{ sampleStage with status := .skipped }, 0, none⟩ :=
  stage_skip_flag_skips sampleStage skipCfg true true (List.mem_singleton.mpr rfl)

/-- C6: when none of the skip gates fire and the wrapped function raises, the
status becomes `FAILURE`; with `abort_on_error` the call reaches
`sys.exit(1)`, without it the call returns normally. -/
theorem stage_failure_abort_behavior (s : Stage) (cfg : Config) (u : Bool)
    (h1 : s.flag_name ∉ cfg.skipped_stages)
    (h2 : cfg.only_stages = [] ∨ s.flag_name ∈ cfg.only_stages)
    (h3 : s.predicate ≠ some false)
    (h4 : cfg.confirm_all_stages = true ∨ s.interactive_confirm = false ∨
      u = true) :
    (s.abort_on_error = true →
      s.call cfg u false = ⟨{ s with status := .failure }, 1, some 1⟩)
    ∧ (s.abort_on_error = false →
      s.call cfg u false = ⟨{ s with status := .failure }, 1, none⟩) := by
  have hs := skipAfterConfirm_eq_false s cfg u h1 h2 h3 h4
  constructor <;> intro ha <;> simp [Stage.call, hs, ha]

/-- Witness for C6, on an aborting and a non-aborting stage. -/
theorem stage_failure_abort_behavior_witness :
    abortStage.call plainCfg true false =
      ⟨{ abortStage with status := .failure }, 1, some 1⟩
    ∧ sampleStage.call plainCfg true false =
      ⟨{ sampleStage with status := .failure }, 1, none⟩ :=
  ⟨(stage_failure_abort_behavior abortStage plainCfg true (by simp [plainCfg])
      (Or.inl rfl) (by simp [abortStage, sampleStage]) (Or.inr (Or.inl rfl))).1 rfl,
   (stage_failure_abort_behavior sampleStage plainCfg true (by simp [plainCfg])
      (Or.inl rfl) (by simp [sampleStage]) (Or.inr (Or.inl rfl))).2 rfl⟩

/-- C7: `register` adds the stage under its flag name iff its platform set is
empty or contains the current platform; a non-applicable stage leaves the
registry (and hence iteration) unchanged. -/
theorem register_platform_filter (m : List (String × Stage)) (current : String)
    (s : Stage) :
    (s.is_valid_for_current_platform current = true →
      alookup s.flag_name (registerStage m current s) = some s)
    ∧ (s.is_valid_for_current_platform current = false →
      registerStage m current s = m) := by
  constructor <;> intro h
  · simp [registerStage, h, alookup_dictInsert_self]
  · simp [registerStage, h]

/-- Witness for C7: an unrestricted stage registers, a Darwin-only stage is
dropped on Linux. -/
theorem register_platform_filter_witness :
    alookup sampleStage.flag_name (registerStage [] "Linux" sampleStage) =
      some sampleStage
    ∧ registerStage [] "Linux" darwinStage = [] :=
  ⟨(register_platform_filter [] "Linux" sampleStage).1 (by decide),
   (register_platform_filter [] "Linux" darwinStage).2 (by decide)⟩

/-- C8: if the destination is a regular file whose content equals the text,
`safe_write` leaves the filesystem identical (no backup, no write, no mtime
change), and a second consecutive identical call is likewise the identity. -/
theorem safe_write_matching_noop (dm : DotfileManager) (fs : FS)
    (text : String) (p : FsPath) (now now2 m : Nat)
    (h : fs.lookup p = some (.file text m)) :
    dm.safe_write fs text p now = some fs
    ∧ (dm.safe_write fs text p now).bind
        (fun g => dm.safe_write g text p now2) = some fs := by
  have hm : fs.content_matches text p = true :=
    fs.content_matches_of_stat text p m (fs.stat_of_file p text m h)
  constructor
  · simp [DotfileManager.safe_write, hm]
  · simp [DotfileManager.safe_write, hm]

/-- Witness for C8. -/
theorem safe_write_matching_noop_witness :
    (DotfileManager.mk "ts").safe_write (FS.mk [(["f"], .file "hello" 5)])
      "hello" ["f"] 9 = some (FS.mk [(["f"], .file "hello" 5)]) :=
  (safe_write_matching_noop (DotfileManager.mk "ts")
    (FS.mk [(["f"], .file "hello" 5)]) "hello" ["f"] 9 10 5 (by decide)).1

/-- C9: a destination that is a symlink to a regular file with matching
content makes `safe_write` a no-op (the content test follows symlinks), so
the destination stays a symlink. -/
theorem safe_write_through_symlink_noop (dm : DotfileManager) (fs : FS)
    (text : String) (p q : FsPath) (m now : Nat)
    (h1 : fs.lookup p = some (.symlink q))
    (h2 : fs.lookup q = some (.file text m)) :
    dm.safe_write fs text p now = some fs
    ∧ fs.lookup p = some (.symlink q) := by
  have hm : fs.content_matches text p = true :=
    fs.content_matches_of_stat text p m (fs.stat_symlink_file p q text m h1 h2)
  exact ⟨by simp [DotfileManager.safe_write, hm], h1⟩

/-- Witness for C9. -/
theorem safe_write_through_symlink_noop_witness :
    (DotfileManager.mk "ts").safe_write
      (FS.mk [(["t"], .file "x" 0), (["l"], .symlink ["t"])]) "x" ["l"] 9 =
      some (FS.mk [(["t"], .file "x" 0), (["l"], .symlink ["t"])]) :=
  (safe_write_through_symlink_noop (DotfileManager.mk "ts")
    (FS.mk [(["t"], .file "x" 0), (["l"], .symlink ["t"])]) "x" ["l"] ["t"] 0 9
    (by decide) (by decide)).1

/-- C10: every call of `Stage.__call__` sets the status to `SKIPPED`,
`SUCCESS` or `FAILURE`; it is never left at `NOT_EXECUTED`. -/
theorem stage_status_never_not_executed (s : Stage) (cfg : Config)
    (u ok : Bool) :
    (s.call cfg u ok).stage.status = .skipped ∨
    (s.call cfg u ok).stage.status = .success ∨
    (s.call cfg u ok).stage.status = .failure := by
  cases h : skipAfterConfirm s cfg u <;> cases ok <;> simp [Stage.call, h]
